import Mathlib

/-!
# CULFS — item lifecycle and matching engine, formalised

Shallow embedding of the CULFS lost-and-found system.  The admin/student
dashboards (`src/components/dashboard/AdminDashboard.tsx`,
`src/components/dashboard/StudentDashboard.tsx`) and the API helper
(`src/lib/api.ts`) are embedded directly from the TypeScript source.
The Flask backend (directory `backend/`) is not part of the source tree,
so the lifecycle operations it implements are modelled from the spec
(sections 4.1–4.4, 6, 7); each such definition is marked
`Modelled from the spec:` in its doc comment.
-/

/-- Status values used by both record kinds.  These are exactly the six
status strings handled by `getStatusColor` in the dashboards. -/
inductive Status where
  | Reported
  | Found
  | Matched
  | Claimed
  | Unclaimed
  | Archived
deriving DecidableEq, Repr

/-- The string rendering of a status, as the backend sends it to the UI
(the dashboards compare `item.status` against these literals). -/
def Status.str : Status → String
  | .Reported => "Reported"
  | .Found => "Found"
  | .Matched => "Matched"
  | .Claimed => "Claimed"
  | .Unclaimed => "Unclaimed"
  | .Archived => "Archived"

/-- Error taxonomy of spec §7. -/
inductive Err where
  | NotFound
  | InvalidTransition
  | AlreadyMatched
  | DependencyExists
  | PolicyViolation
  | Unauthorized
  | Conflict
deriving DecidableEq, Repr

/-- Notification types (spec §3). -/
inductive NType where
  | MatchFound
  | ContactMessage
  | MarkedFound
deriving DecidableEq, Repr

/-- A lost report.  `dateReported` is a calendar-day number (days since
epoch); the spec evaluates the idle rule with calendar-day granularity. -/
structure LostReport where
  caseNumber : String
  reporterId : String
  itemName : String
  status : Status
  dateReported : Int
  matchedFoundItemId : Option String
  archivedAt : Option Int
deriving DecidableEq, Repr

/-- A found item. -/
structure FoundItem where
  foundItemId : String
  itemName : String
  status : Status
  matchedCaseNumber : Option String
  disposition : Option String
  archivedAt : Option Int
deriving DecidableEq, Repr

/-- A notification record (spec §3): append-only. -/
structure Notification where
  recipientUserId : String
  caseNumber : String
  ntype : NType
  message : String
deriving DecidableEq, Repr

/-- The record store: three keyed collections (spec §6). -/
structure Store where
  lost : List LostReport
  found : List FoundItem
  notifications : List Notification
deriving DecidableEq, Repr

/-- Lookup of a lost report by case number. -/
def findLost (s : Store) (c : String) : Option LostReport :=
  s.lost.find? (fun r => r.caseNumber == c)

/-- Lookup of a found item by id. -/
def findFound (s : Store) (i : String) : Option FoundItem :=
  s.found.find? (fun f => f.foundItemId == i)

/-- Conditional update of every record matching a predicate. -/
def updateWhere {α : Type} (p : α → Bool) (f : α → α) (l : List α) : List α :=
  l.map (fun a => if p a then f a else a)

/-- Modelled from the spec: the archival policy for lost reports (§4.1):
legal when status = Matched unconditionally, or when status is neither
Claimed nor Archived and `dateReported` is more than 30 days in the past,
evaluated at call time with calendar-day granularity (§4.1, 30-day idle
check). -/
def archivePolicy (r : LostReport) (now : Int) : Bool :=
  r.status == .Matched ||
    (r.status != .Claimed && r.status != .Archived && now - r.dateReported > 30)

/-- Modelled from the spec: `archiveLostReport(caseNumber, actor)` of §4.1,
implemented by the absent Flask backend.  Requires Admin Gate
authorization (§6: destructive operations fail `Unauthorized` before any
state is touched), then existence, then the archival policy; on success
sets status = Archived and `archivedAt = now`, otherwise fails
`PolicyViolation`. -/
def archiveLostReport (authorized : Bool) (c : String) (now : Int)
    (s : Store) : Except Err Store :=
  if !authorized then .error .Unauthorized
  else
    match findLost s c with
    | none => .error .NotFound
    | some r =>
      if archivePolicy r now then
        let lost' := updateWhere (fun r => r.caseNumber == c)
          (fun r => { r with status := .Archived, archivedAt := some now }) s.lost
        .ok { s with lost := lost' }
      else .error .PolicyViolation

/-- Modelled from the spec: `deleteLostReport(caseNumber, actor)` of §4.1,
implemented by the absent Flask backend.  Requires Admin Gate
authorization; legal only when status ∈ {Reported, Unclaimed} and
`matchedFoundItemId` is null, failing `DependencyExists` otherwise;
performs a hard delete of the record. -/
def deleteLostReport (authorized : Bool) (c : String)
    (s : Store) : Except Err Store :=
  if !authorized then .error .Unauthorized
  else
    match findLost s c with
    | none => .error .NotFound
    | some r =>
      if (r.status == .Reported || r.status == .Unclaimed) &&
          r.matchedFoundItemId == none then
        .ok { s with lost := s.lost.filter (fun r => !(r.caseNumber == c)) }
      else .error .DependencyExists

/-- Modelled from the spec: `archiveFoundItem(foundItemId, disposition,
actor)` of §4.1, implemented by the absent Flask backend.  Requires Admin
Gate authorization; legal when status ∈ {Found, Matched, Unclaimed}; sets
status = Archived, the disposition and `archivedAt = now`. -/
def archiveFoundItem (authorized : Bool) (i : String) (disp : String)
    (now : Int) (s : Store) : Except Err Store :=
  if !authorized then .error .Unauthorized
  else
    match findFound s i with
    | none => .error .NotFound
    | some f =>
      if f.status == .Found || f.status == .Matched || f.status == .Unclaimed then
        let upd := fun (f : FoundItem) =>
          { f with status := Status.Archived, disposition := some disp,
                   archivedAt := some now }
        let found' := updateWhere (fun f => f.foundItemId == i) upd s.found
        .ok { s with found := found' }
      else .error .InvalidTransition

/-- Modelled from the spec: `markLostAsFound(caseNumber)` of §4.1,
implemented by the absent Flask backend.  Legal only from Reported
(`InvalidTransition` otherwise, `NotFound` if the case does not exist);
it only signals "found" and requires no FoundItem pairing. -/
def markLostAsFound (c : String) (s : Store) : Except Err Store :=
  match findLost s c with
  | none => .error .NotFound
  | some r =>
    if r.status == .Reported then
      let lost' := updateWhere (fun r => r.caseNumber == c)
        (fun r => { r with status := .Found }) s.lost
      .ok { s with lost := lost' }
    else .error .InvalidTransition

/-- Modelled from the spec: `matchFoundItemToReport(foundItemId,
caseNumber)` of §4.2, implemented by the absent Flask backend.
Preconditions: both records exist (`NotFound` otherwise), FoundItem.status
= Found and LostReport.status = Reported (`AlreadyMatched` otherwise).
Atomic effect: FoundItem.status = Matched with `matchedCaseNumber` set,
LostReport.status = Matched with `matchedFoundItemId` set, and one
Notification of type MatchFound to the report's reporter. -/
def matchFoundItemToReport (i : String) (c : String)
    (s : Store) : Except Err Store :=
  match findFound s i with
  | none => .error .NotFound
  | some f =>
    match findLost s c with
    | none => .error .NotFound
    | some r =>
      if f.status == .Found && r.status == .Reported then
        let found' := updateWhere (fun f => f.foundItemId == i)
          (fun f => { f with status := .Matched, matchedCaseNumber := some c })
          s.found
        let lost' := updateWhere (fun r => r.caseNumber == c)
          (fun r => { r with status := .Matched, matchedFoundItemId := some i })
          s.lost
        let notes' := s.notifications ++ [⟨r.reporterId, c, .MatchFound, "Match found"⟩]
        .ok { lost := lost', found := found', notifications := notes' }
      else .error .AlreadyMatched

/-- Modelled from the spec: `markFoundAsClaimed(foundItemId)` of §4.1,
implemented by the absent Flask backend.  Legal when status ∈ {Found,
Matched}; if `matchedCaseNumber` is set the paired LostReport is
transitioned to Claimed atomically in the same operation, otherwise only
the FoundItem moves to Claimed; fails `InvalidTransition` otherwise. -/
def markFoundAsClaimed (i : String) (s : Store) : Except Err Store :=
  match findFound s i with
  | none => .error .NotFound
  | some f =>
    if f.status == .Found || f.status == .Matched then
      let found' := updateWhere (fun f => f.foundItemId == i)
        (fun f => { f with status := .Claimed }) s.found
      match f.matchedCaseNumber with
      | some c =>
        let lost' := updateWhere (fun r => r.caseNumber == c)
          (fun r => { r with status := .Claimed }) s.lost
        .ok { s with found := found', lost := lost' }
      | none =>
        .ok { s with found := found' }
    else .error .InvalidTransition

/-!
## UI gating, embedded from the dashboard source

The dashboards receive each record's status as a string and compare it
against literals; the predicates below are transcribed from the JSX
conditions that decide whether each action button is rendered.
-/

/-- Embedded from `AdminDashboard.tsx` lines 270–276: the 30-day helper
wraps `differenceInDays(new Date(), parseISO(dateString)) > 30` in a
try/catch that returns `false` on any exception.  Date parsing and the
day difference are modelled by a parse function producing the calendar
day number, with `none` standing for a parse that throws (or yields an
invalid date); `now` is the calendar day of the call. -/
def isOlderThan30Days (parse : String → Option Int) (now : Int)
    (dateString : String) : Bool :=
  match parse dateString with
  | none => false
  | some d => now - d > 30

/-- Embedded from `AdminDashboard.tsx` lines 762–775: the Archive button
for a lost item renders when
`item.status === "Matched" || (item.status !== "Claimed" && item.status
!== "Archived" && isOlderThan30Days(item.dateReported))`. -/
def archiveLostButtonVisible (parse : String → Option Int) (now : Int)
    (status : String) (dateReported : String) : Bool :=
  status == "Matched" ||
    (status != "Claimed" && status != "Archived" &&
      isOlderThan30Days parse now dateReported)

/-- Embedded from `AdminDashboard.tsx` lines 751–761: the admin Delete
button renders when `item.status === "Reported" || item.status ===
"Unclaimed"`. -/
def adminDeleteButtonVisible (status : String) : Bool :=
  status == "Reported" || status == "Unclaimed"

/-- Embedded from `StudentDashboard.tsx` lines 461–471: the student
Delete button renders under the same condition as the admin one. -/
def studentDeleteButtonVisible (status : String) : Bool :=
  status == "Reported" || status == "Unclaimed"

/-- Embedded from `AdminDashboard.tsx` lines 846–855: the Match with
Report button renders when `item.status === "Found"`. -/
def matchButtonVisible (status : String) : Bool :=
  status == "Found"

/-- Embedded from `AdminDashboard.tsx` lines 730–739: the Mark as Found
button renders when `item.status === "Reported"`. -/
def markAsFoundButtonVisible (status : String) : Bool :=
  status == "Reported"

/-- Embedded from `AdminDashboard.tsx` lines 835–845: the Claim button
renders when `item.status === "Found" &&
lostItemNames.includes(item.itemName)`. -/
def claimButtonVisible (status : String) (itemName : String)
    (lostItemNames : List String) : Bool :=
  status == "Found" && lostItemNames.contains itemName

/-!
## Statistics displays, embedded from the dashboard source
-/

/-- The stats record returned by `/api/admin/stats`
(`StatsResponse` in `AdminDashboard.tsx`). -/
structure Stats where
  total_lost : Nat
  total_found : Nat
  total_claimed : Nat
  total_matched : Nat
  total_archived : Nat
deriving DecidableEq, Repr

/-- `Math.round((num / den) * 100)` over natural counts:
⌊100·num/den + 1/2⌋, written with natural division.  (JS doubles
represent the integer counts involved exactly; `Math.round` rounds half
up.) -/
def natRound100 (num den : Nat) : Nat :=
  (200 * num + den) / (2 * den)

/-- Embedded from `AdminDashboard.tsx` lines 619–636 (ratio banner):
`stats.total_lost > 0 ? Math.round((total_found/total_lost)*100)
: "No lost items reported yet"`; `none` stands for the no-data message. -/
def bannerFoundRate (st : Stats) : Option Nat :=
  if st.total_lost > 0 then some (natRound100 st.total_found st.total_lost)
  else none

/-- Embedded from `AdminDashboard.tsx` lines 628–634 (ratio banner,
claim side): `none` stands for the no-data message. -/
def bannerClaimRate (st : Stats) : Option Nat :=
  if st.total_found > 0 then some (natRound100 st.total_claimed st.total_found)
  else none

/-- Embedded from `AdminDashboard.tsx` lines 898–908 (analytics Success
Rate): falls back to `0` when `total_lost` is zero. -/
def analyticsSuccessRate (st : Stats) : Nat :=
  if st.total_lost > 0 then natRound100 st.total_found st.total_lost else 0

/-- Embedded from `AdminDashboard.tsx` lines 927–937 (analytics Total
Claimed / Total Found): falls back to `0` when `total_found` is zero. -/
def analyticsClaimRate (st : Stats) : Nat :=
  if st.total_found > 0 then natRound100 st.total_claimed st.total_found else 0

/-!
## The API URL helper, embedded from `src/lib/api.ts` (lines 106–131)

Strings are embedded as `List Char`.  JavaScript's `trim`/`toLowerCase`
are modelled over the ASCII range, which covers every character the
normalization logic inspects.
-/

/-- ASCII whitespace, for `String.prototype.trim`. -/
def isWsChar (c : Char) : Bool :=
  c == ' ' || c == '\t' || c == '\n' || c == '\r'

/-- `rawBase.trim()`: strip whitespace from both ends. -/
def trimChars (l : List Char) : List Char :=
  ((l.dropWhile isWsChar).reverse.dropWhile isWsChar).reverse

/-- `.replace(/\/+$/g, "")`: strip all trailing slashes. -/
def dropTrailingSlashes (l : List Char) : List Char :=
  (l.reverse.dropWhile (fun c => c == '/')).reverse

/-- Embedded from `api.ts` lines 114–118: trim whitespace, strip
trailing slashes, and if the result ends (case-insensitively) with
`"/api"`, drop those four characters.  The result is `apiBase`. -/
def apiBase (rawBase : List Char) : List Char :=
  let t := dropTrailingSlashes (trimChars rawBase)
  if ['/', 'a', 'p', 'i'].isSuffixOf (t.map Char.toLower) then
    t.take (t.length - 4)
  else t

/-- `path.replace(/^\/+/, "")`: strip leading slashes from the path. -/
def cleanedPath (p : List Char) : List Char :=
  p.dropWhile (fun c => c == '/')

/-- `path.startsWith("http")`. -/
def startsWithHttp (p : List Char) : Bool :=
  ['h', 't', 't', 'p'].isPrefixOf p

/-- Embedded from `api.ts` lines 120–131: `apiFetch` passes full URLs
through unchanged and otherwise requests
`apiBase + "/" + cleanedPath`. -/
def apiFetchUrl (rawBase : List Char) (path : List Char) : List Char :=
  if startsWithHttp path then path
  else apiBase rawBase ++ '/' :: cleanedPath path

/-- The fallback base hard-coded in `api.ts` line 108, used when
`VITE_API_URL` is not configured. -/
def defaultRawBase : List Char :=
  "https://culfs-main-production.up.railway.app".toList

/-- The length of the run of consecutive `'/'` characters surrounding
the join point of `base ++ rest`: the trailing slashes of `base` plus
the leading slashes of `rest`.  "Exactly one slash at the join point"
means this run has length 1. -/
def joinSlashRun (base rest : List Char) : Nat :=
  (base.reverse.takeWhile (fun c => c == '/')).length +
    (rest.takeWhile (fun c => c == '/')).length

/-- The archival condition exactly as the spec states it (§8):
status = Matched, or status ∉ {Claimed, Archived} and
`now − dateReported > 30` days. -/
def archiveLegal (r : LostReport) (now : Int) : Prop :=
  r.status = .Matched ∨
    (r.status ≠ .Claimed ∧ r.status ≠ .Archived ∧ now - r.dateReported > 30)

/-- The deletion condition exactly as the spec states it (§8):
status ∈ {Reported, Unclaimed} and `matchedFoundItemId` is null. -/
def deleteLegal (r : LostReport) : Prop :=
  (r.status = .Reported ∨ r.status = .Unclaimed) ∧ r.matchedFoundItemId = none

/-- A concrete lost report used to instantiate the theorems below. -/
def sampleReport : LostReport :=
  { caseNumber := "c1", reporterId := "u1", itemName := "Backpack",
    status := .Reported, dateReported := 0, matchedFoundItemId := none,
    archivedAt := none }

/-- A concrete store holding only `sampleReport`. -/
def sampleStore : Store :=
  { lost := [sampleReport], found := [], notifications := [] }

/-- A concrete date parser recognising a single date string, mapping it
to calendar day 0. -/
def sampleParse : String → Option Int :=
  fun s => if s == "1970-01-01" then some 0 else none

/-- Scenario B of the spec: lost report R1 in status Reported. -/
def scenarioBReport : LostReport :=
  { caseNumber := "R1", reporterId := "u1", itemName := "Blue Backpack",
    status := .Reported, dateReported := 0, matchedFoundItemId := none,
    archivedAt := none }

/-- Scenario B of the spec: found item F1 in status Found. -/
def scenarioBFound : FoundItem :=
  { foundItemId := "F1", itemName := "Blue Backpack", status := .Found,
    matchedCaseNumber := none, disposition := none, archivedAt := none }

/-- Scenario B of the spec: a store holding F1 and R1. -/
def scenarioBStore : Store :=
  { lost := [scenarioBReport], found := [scenarioBFound], notifications := [] }

/-- A found item already claimed, for exercising the ineligible-claim
path. -/
def claimedFound : FoundItem :=
  { foundItemId := "F2", itemName := "Calculator", status := .Claimed,
    matchedCaseNumber := none, disposition := none, archivedAt := none }

/-- A store whose only found item is already claimed. -/
def claimedStore : Store :=
  { lost := [], found := [claimedFound], notifications := [] }

/-- Scenario C of the spec: F1 after matching, paired with R1. -/
def scenarioCFound : FoundItem :=
  { foundItemId := "F1", itemName := "Blue Backpack", status := .Matched,
    matchedCaseNumber := some "R1", disposition := none, archivedAt := none }

/-- Scenario C of the spec: R1 after matching, paired with F1. -/
def scenarioCReport : LostReport :=
  { caseNumber := "R1", reporterId := "u1", itemName := "Blue Backpack",
    status := .Matched, dateReported := 0, matchedFoundItemId := some "F1",
    archivedAt := none }

/-- Scenario C of the spec: the store after Scenario B's match. -/
def scenarioCStore : Store :=
  { lost := [scenarioCReport], found := [scenarioCFound], notifications := [] }

/-- A stats record with no lost reports, for the zero-denominator case. -/
def zeroLostStats : Stats :=
  { total_lost := 0, total_found := 5, total_claimed := 2,
    total_matched := 0, total_archived := 0 }

/-!
## Helper lemmas
-/

/-- Updating every record matching `p` with a `p`-preserving function
commutes with keyed lookup. -/
theorem find?_updateWhere {α : Type} (p : α → Bool) (f : α → α)
    (hp : ∀ a, p (f a) = p a) :
    ∀ l : List α, (updateWhere p f l).find? p = (l.find? p).map f
  | [] => rfl
  | a :: l => by
    unfold updateWhere
    rcases h : p a with _ | _
    · rw [List.map_cons, if_neg (by simp [h]), List.find?_cons_of_neg _ (by simp [h]),
        List.find?_cons_of_neg _ (by simp [h])]
      exact find?_updateWhere p f hp l
    · rw [List.map_cons, if_pos h, List.find?_cons_of_pos _ (by rw [hp]; exact h),
        List.find?_cons_of_pos _ h]
      rfl

theorem archivePolicy_iff (r : LostReport) (now : Int) :
    archivePolicy r now = true ↔ archiveLegal r now := by
  simp [archivePolicy, archiveLegal, and_assoc]

/-- C1: `archiveLostReport` succeeds exactly when the report's status is
Matched, or its status is neither Claimed nor Archived and `now` minus
`dateReported` exceeds 30 days, evaluated at call time with calendar-day
granularity; in every other case it fails with `PolicyViolation`.
Correspondingly the admin UI offers the Archive action exactly under
this condition. -/
theorem archiveLostReport_succeeds_iff
    (s : Store) (c : String) (now : Int) (r : LostReport)
    (hr : findLost s c = some r)
    (parse : String → Option Int) (ds : String)
    (hd : parse ds = some r.dateReported) :
    ((∃ s', archiveLostReport true c now s = .ok s') ↔ archiveLegal r now) ∧
    (¬ archiveLegal r now →
      archiveLostReport true c now s = .error .PolicyViolation) ∧
    (archiveLostButtonVisible parse now r.status.str ds = true ↔
      archiveLegal r now) := by
  have hpol := archivePolicy_iff r now
  refine ⟨?_, ?_, ?_⟩
  · rw [← hpol]
    rcases h : archivePolicy r now with _ | _
    · simp [archiveLostReport, hr, h]
    · simp [archiveLostReport, hr, h]
  · intro hl
    rw [← hpol] at hl
    rcases h : archivePolicy r now with _ | _
    · simp [archiveLostReport, hr, h]
    · exact absurd h hl
  · rw [← hpol]
    obtain ⟨cn, rid, nm, st, dr, mf, aa⟩ := r
    simp only at hd
    cases st <;>
      simp [archiveLostButtonVisible, isOlderThan30Days, hd, Status.str,
        archivePolicy]

/-- Closed instance of `archiveLostReport_succeeds_iff`: a 45-day-old
Reported report in a one-report store. -/
theorem archiveLostReport_succeeds_iff_witness :
    findLost sampleStore "c1" = some sampleReport ∧
    sampleParse "1970-01-01" = some sampleReport.dateReported ∧
    ((∃ s', archiveLostReport true "c1" 45 sampleStore = .ok s') ↔
      archiveLegal sampleReport 45) := by
  refine ⟨by decide, by decide, ?_⟩
  exact (archiveLostReport_succeeds_iff sampleStore "c1" 45 sampleReport
    (by decide) sampleParse "1970-01-01" (by decide)).1

/-- C2: `deleteLostReport` succeeds exactly when status ∈ {Reported,
Unclaimed} and `matchedFoundItemId` is null, failing `DependencyExists`
otherwise; both the admin and the student UI offer the Delete action
exactly when status ∈ {Reported, Unclaimed}. -/
theorem deleteLostReport_succeeds_iff
    (s : Store) (c : String) (r : LostReport)
    (hr : findLost s c = some r) :
    ((∃ s', deleteLostReport true c s = .ok s') ↔ deleteLegal r) ∧
    (¬ deleteLegal r → deleteLostReport true c s = .error .DependencyExists) ∧
    (adminDeleteButtonVisible r.status.str = true ↔
      (r.status = .Reported ∨ r.status = .Unclaimed)) ∧
    (studentDeleteButtonVisible r.status.str = true ↔
      (r.status = .Reported ∨ r.status = .Unclaimed)) := by
  have hb : ((r.status == Status.Reported || r.status == Status.Unclaimed) &&
      r.matchedFoundItemId == none) = true ↔ deleteLegal r := by
    simp [deleteLegal]
  refine ⟨?_, ?_, ?_, ?_⟩
  · rw [← hb]
    rcases h : ((r.status == Status.Reported || r.status == Status.Unclaimed) &&
      r.matchedFoundItemId == none) with _ | _
    · simp [deleteLostReport, hr, h]
    · simp [deleteLostReport, hr, h]
  · intro hl
    rw [← hb] at hl
    rcases h : ((r.status == Status.Reported || r.status == Status.Unclaimed) &&
      r.matchedFoundItemId == none) with _ | _
    · simp [deleteLostReport, hr, h]
    · exact absurd h hl
  · obtain ⟨cn, rid, nm, st, dr, mf, aa⟩ := r
    cases st <;> simp [adminDeleteButtonVisible, Status.str]
  · obtain ⟨cn, rid, nm, st, dr, mf, aa⟩ := r
    cases st <;> simp [studentDeleteButtonVisible, Status.str]

/-- Closed instance of `deleteLostReport_succeeds_iff` on the sample
store. -/
theorem deleteLostReport_succeeds_iff_witness :
    findLost sampleStore "c1" = some sampleReport ∧
    ((∃ s', deleteLostReport true "c1" sampleStore = .ok s') ↔
      deleteLegal sampleReport) := by
  refine ⟨by decide, ?_⟩
  exact (deleteLostReport_succeeds_iff sampleStore "c1" sampleReport (by decide)).1

/-- C7: `markLostAsFound` is legal only from Reported, failing
`InvalidTransition` from any other status and `NotFound` when the case
does not exist; the admin UI offers Mark as Found exactly when the
status is Reported. -/
theorem markLostAsFound_spec (s : Store) (c : String) :
    (findLost s c = none → markLostAsFound c s = .error .NotFound) ∧
    (∀ r, findLost s c = some r →
      ((∃ s', markLostAsFound c s = .ok s') ↔ r.status = .Reported) ∧
      (r.status ≠ .Reported → markLostAsFound c s = .error .InvalidTransition) ∧
      (markAsFoundButtonVisible r.status.str = true ↔ r.status = .Reported)) := by
  refine ⟨?_, ?_⟩
  · intro h
    simp [markLostAsFound, h]
  · intro r hr
    have hb : (r.status == Status.Reported) = true ↔ r.status = .Reported := by
      simp
    refine ⟨?_, ?_, ?_⟩
    · rw [← hb]
      rcases h : (r.status == Status.Reported) with _ | _
      · simp [markLostAsFound, hr, h]
      · simp [markLostAsFound, hr, h]
    · intro hl
      have h : (r.status == Status.Reported) = false := by simp [hl]
      simp [markLostAsFound, hr, h]
    · obtain ⟨cn, rid, nm, st, dr, mf, aa⟩ := r
      cases st <;> simp [markAsFoundButtonVisible, Status.str]

/-- Closed instance of `markLostAsFound_spec` on the sample store. -/
theorem markLostAsFound_spec_witness :
    findLost sampleStore "c1" = some sampleReport ∧
    ((∃ s', markLostAsFound "c1" sampleStore = .ok s') ↔
      sampleReport.status = .Reported) := by
  refine ⟨by decide, ?_⟩
  exact ((markLostAsFound_spec sampleStore "c1").2 sampleReport (by decide)).1

/-- C3: `matchFoundItemToReport` requires both records to exist, the
found item to be in status Found and the report in status Reported
(failing `AlreadyMatched` when the statuses are wrong and `NotFound`
when a record is absent); on success it atomically sets both statuses to
Matched, cross-sets `matchedCaseNumber` and `matchedFoundItemId`, and
appends exactly one MatchFound notification addressed to the report's
reporter.  The admin UI offers the Match action exactly when the found
item's status is Found. -/
theorem matchFoundItemToReport_spec (s : Store) (i c : String) :
    (findFound s i = none ∨ findLost s c = none →
      matchFoundItemToReport i c s = .error .NotFound) ∧
    (∀ f r, findFound s i = some f → findLost s c = some r →
      ((∃ s', matchFoundItemToReport i c s = .ok s') ↔
        (f.status = .Found ∧ r.status = .Reported)) ∧
      (¬ (f.status = .Found ∧ r.status = .Reported) →
        matchFoundItemToReport i c s = .error .AlreadyMatched) ∧
      (∀ s', matchFoundItemToReport i c s = .ok s' →
        findFound s' i =
          some { f with status := .Matched, matchedCaseNumber := some c } ∧
        findLost s' c =
          some { r with status := .Matched, matchedFoundItemId := some i } ∧
        s'.notifications = s.notifications ++
          [⟨r.reporterId, c, .MatchFound, "Match found"⟩]) ∧
      (matchButtonVisible f.status.str = true ↔ f.status = .Found)) := by
  refine ⟨?_, ?_⟩
  · rintro (h | h)
    · simp [matchFoundItemToReport, h]
    · rcases hf : findFound s i with _ | f
      · simp [matchFoundItemToReport, hf]
      · simp [matchFoundItemToReport, hf, h]
  · intro f r hf hr
    have hb : (f.status == Status.Found && r.status == Status.Reported) = true ↔
        (f.status = .Found ∧ r.status = .Reported) := by
      simp
    refine ⟨?_, ?_, ?_, ?_⟩
    · rw [← hb]
      rcases h : (f.status == Status.Found && r.status == Status.Reported) with _ | _
      · simp [matchFoundItemToReport, hf, hr, h]
      · simp [matchFoundItemToReport, hf, hr, h]
    · intro hl
      rw [← hb] at hl
      rcases h : (f.status == Status.Found && r.status == Status.Reported) with _ | _
      · simp [matchFoundItemToReport, hf, hr, h]
      · exact absurd h hl
    · intro s' hs'
      rcases h : (f.status == Status.Found && r.status == Status.Reported) with _ | _
      · simp [matchFoundItemToReport, hf, hr, h] at hs'
      · simp only [matchFoundItemToReport, hf, hr, h, if_true] at hs'
        have hfind := find?_updateWhere (fun f => f.foundItemId == i)
          (fun f => { f with status := Status.Matched, matchedCaseNumber := some c })
          (fun a => rfl) s.found
        have hlost := find?_updateWhere (fun r => r.caseNumber == c)
          (fun r => { r with status := Status.Matched, matchedFoundItemId := some i })
          (fun a => rfl) s.lost
        simp only [findFound] at hf
        simp only [findLost] at hr
        rw [hf] at hfind
        rw [hr] at hlost
        injection hs' with hs2
        subst hs2
        refine ⟨?_, ?_, rfl⟩
        · simpa [findFound] using hfind
        · simpa [findLost] using hlost
    · obtain ⟨fid, nm, st, mc, dsp, aa⟩ := f
      cases st <;> simp [matchButtonVisible, Status.str]

/-- Closed instance of `matchFoundItemToReport_spec`: Scenario B of the
spec, a Found item matched to a Reported report. -/
theorem matchFoundItemToReport_spec_witness :
    findFound scenarioBStore "F1" = some scenarioBFound ∧
    findLost scenarioBStore "R1" = some scenarioBReport ∧
    ((∃ s', matchFoundItemToReport "F1" "R1" scenarioBStore = .ok s') ↔
      (scenarioBFound.status = .Found ∧ scenarioBReport.status = .Reported)) := by
  refine ⟨by decide, by decide, ?_⟩
  exact ((matchFoundItemToReport_spec scenarioBStore "F1" "R1").2 scenarioBFound
    scenarioBReport (by decide) (by decide)).1

/-- C4: `markFoundAsClaimed` is legal exactly when the found item's
status is Found or Matched; when a `matchedCaseNumber` is set the paired
lost report is transitioned to Claimed in the same atomic operation,
otherwise only the found item moves to Claimed; any other starting
status fails with `InvalidTransition`. -/
theorem markFoundAsClaimed_spec (s : Store) (i : String) (f : FoundItem)
    (hf : findFound s i = some f) :
    ((∃ s', markFoundAsClaimed i s = .ok s') ↔
      (f.status = .Found ∨ f.status = .Matched)) ∧
    (¬ (f.status = .Found ∨ f.status = .Matched) →
      markFoundAsClaimed i s = .error .InvalidTransition) ∧
    (∀ s', markFoundAsClaimed i s = .ok s' →
      findFound s' i = some { f with status := .Claimed } ∧
      (∀ c, f.matchedCaseNumber = some c →
        ∀ r, findLost s c = some r →
          findLost s' c = some { r with status := .Claimed }) ∧
      (f.matchedCaseNumber = none → s'.lost = s.lost)) := by
  have hb : (f.status == Status.Found || f.status == Status.Matched) = true ↔
      (f.status = .Found ∨ f.status = .Matched) := by
    simp
  refine ⟨?_, ?_, ?_⟩
  · rw [← hb]
    rcases h : (f.status == Status.Found || f.status == Status.Matched) with _ | _
    · simp [markFoundAsClaimed, hf, h]
    · rcases hmc : f.matchedCaseNumber with _ | cc <;>
        simp [markFoundAsClaimed, hf, h, hmc]
  · intro hl
    have h : (f.status == Status.Found || f.status == Status.Matched) = false := by
      simp only [not_or] at hl
      simp [hl.1, hl.2]
    simp [markFoundAsClaimed, hf, h]
  · intro s' hs'
    rcases h : (f.status == Status.Found || f.status == Status.Matched) with _ | _
    · simp [markFoundAsClaimed, hf, h] at hs'
    · have hfind := find?_updateWhere (fun f => f.foundItemId == i)
        (fun f => { f with status := Status.Claimed }) (fun a => rfl) s.found
      have hf' : List.find? (fun f => f.foundItemId == i) s.found = some f := hf
      rw [hf'] at hfind
      rcases hmc : f.matchedCaseNumber with _ | cc
      · simp only [markFoundAsClaimed, hf, h, hmc, if_true] at hs'
        injection hs' with hs2
        subst hs2
        refine ⟨?_, ?_, fun _ => rfl⟩
        · simpa [findFound, hmc] using hfind
        · intro c hc
          cases hc
      · simp only [markFoundAsClaimed, hf, h, hmc, if_true] at hs'
        injection hs' with hs2
        subst hs2
        refine ⟨?_, ?_, ?_⟩
        · simpa [findFound, hmc] using hfind
        · intro c hc r hr
          injection hc with hc2
          subst hc2
          have hlost := find?_updateWhere (fun r => r.caseNumber == cc)
            (fun r => { r with status := Status.Claimed }) (fun a => rfl) s.lost
          have hr' : List.find? (fun r => r.caseNumber == cc) s.lost = some r := hr
          rw [hr'] at hlost
          simpa [findLost] using hlost
        · intro hnone
          cases hnone

/-- Closed instance of `markFoundAsClaimed_spec`: Scenario C of the
spec, claiming the matched item F1. -/
theorem markFoundAsClaimed_spec_witness :
    findFound scenarioCStore "F1" = some scenarioCFound ∧
    ((∃ s', markFoundAsClaimed "F1" scenarioCStore = .ok s') ↔
      (scenarioCFound.status = .Found ∨ scenarioCFound.status = .Matched)) := by
  refine ⟨by decide, ?_⟩
  exact (markFoundAsClaimed_spec scenarioCStore "F1" scenarioCFound (by decide)).1

/-- C5: every destructive operation invoked without an `authorized=true`
Admin Gate decision fails with `Unauthorized` and leaves the store
untouched; in particular (Scenario E) an unauthorized
`archiveLostReport` on a 45-day-old Reported report fails `Unauthorized`
even though the archival policy itself would allow the archive. -/
theorem destructive_ops_require_authorization :
    (∀ s c, deleteLostReport false c s = .error .Unauthorized) ∧
    (∀ s c now, archiveLostReport false c now s = .error .Unauthorized) ∧
    (∀ s i d now, archiveFoundItem false i d now s = .error .Unauthorized) ∧
    (archivePolicy sampleReport 45 = true ∧
      archiveLostReport false "c1" 45 sampleStore = .error .Unauthorized) := by
  exact ⟨fun s c => rfl, fun s c now => rfl, fun s i d now => rfl, by decide, rfl⟩

/-- C6: the name-based claim-eligibility filter is a display convenience
only — even when the filter allowed the Claim action (on whatever status
string the client held), the authoritative `markFoundAsClaimed` path
re-validates the found item's server-side state and rejects the claim
with `InvalidTransition` whenever that state is not Found or Matched. -/
theorem claim_filter_not_authoritative
    (clientStatus itemName : String) (names : List String)
    (_hvis : claimButtonVisible clientStatus itemName names = true)
    (s : Store) (i : String) (f : FoundItem)
    (hf : findFound s i = some f)
    (hstat : f.status ≠ .Found ∧ f.status ≠ .Matched) :
    markFoundAsClaimed i s = .error .InvalidTransition := by
  have h : (f.status == Status.Found || f.status == Status.Matched) = false := by
    simp [hstat.1, hstat.2]
  simp [markFoundAsClaimed, hf, h]

/-- Closed instance of `claim_filter_not_authoritative`: the client
filter shows Claim for a stale "Found" status while the server-side item
is already Claimed. -/
theorem claim_filter_not_authoritative_witness :
    claimButtonVisible "Found" "Calculator" ["Calculator"] = true ∧
    findFound claimedStore "F2" = some claimedFound ∧
    markFoundAsClaimed "F2" claimedStore = .error .InvalidTransition := by
  refine ⟨by decide, by decide, ?_⟩
  exact claim_filter_not_authoritative "Found" "Calculator" ["Calculator"]
    (by decide) claimedStore "F2" claimedFound (by decide) (by decide)

theorem natRound100_eq_round (a b : ℕ) (hb : 0 < b) :
    (natRound100 a b : ℤ) = round ((100 * a : ℚ) / b) := by
  have hb' : (b : ℚ) ≠ 0 := Nat.cast_ne_zero.mpr hb.ne'
  have h1 : (100 * a : ℚ) / b + 1 / 2 =
      (((200 * a + b : ℕ) : ℤ) : ℚ) / ((2 * b : ℕ) : ℚ) := by
    push_cast
    field_simp
    ring
  rw [round_eq, h1, Rat.floor_intCast_div_natCast, natRound100, Int.ofNat_ediv]

/-- C8: the derived ratios are foundRate = total_found / total_lost and
claimRate = total_claimed / total_found; every percentage display guards
its denominator, falling back to the no-data message (banner) or to 0
(analytics) when `total_lost` respectively `total_found` is zero, and
otherwise showing the ratio rounded to a whole percentage. -/
theorem stats_rates_no_div_by_zero (st : Stats) :
    (st.total_lost = 0 →
      bannerFoundRate st = none ∧ analyticsSuccessRate st = 0) ∧
    (st.total_found = 0 →
      bannerClaimRate st = none ∧ analyticsClaimRate st = 0) ∧
    (0 < st.total_lost →
      bannerFoundRate st = some (analyticsSuccessRate st) ∧
      (analyticsSuccessRate st : ℤ) =
        round ((100 : ℚ) * ((st.total_found : ℚ) / st.total_lost))) ∧
    (0 < st.total_found →
      bannerClaimRate st = some (analyticsClaimRate st) ∧
      (analyticsClaimRate st : ℤ) =
        round ((100 : ℚ) * ((st.total_claimed : ℚ) / st.total_found))) := by
  refine ⟨?_, ?_, ?_, ?_⟩
  · intro h
    simp [bannerFoundRate, analyticsSuccessRate, h]
  · intro h
    simp [bannerClaimRate, analyticsClaimRate, h]
  · intro h
    refine ⟨by simp [bannerFoundRate, analyticsSuccessRate, h], ?_⟩
    rw [analyticsSuccessRate, if_pos h, natRound100_eq_round _ _ h, mul_div_assoc]
  · intro h
    refine ⟨by simp [bannerClaimRate, analyticsClaimRate, h], ?_⟩
    rw [analyticsClaimRate, if_pos h, natRound100_eq_round _ _ h, mul_div_assoc]

/-- Closed instance of `stats_rates_no_div_by_zero` at a record with no
lost reports. -/
theorem stats_rates_no_div_by_zero_witness :
    zeroLostStats.total_lost = 0 ∧
    (bannerFoundRate zeroLostStats = none ∧
      analyticsSuccessRate zeroLostStats = 0) := by
  refine ⟨by decide, ?_⟩
  exact (stats_rates_no_div_by_zero zeroLostStats).1 (by decide)

/-- A prefix of an append is a prefix of the left part, or extends it. -/
theorem prefix_append_cases {α : Type} :
    ∀ (xs : List α) (l ys : List α), l <+: xs ++ ys →
      l <+: xs ∨ ∃ l₂, l = xs ++ l₂ ∧ l₂ <+: ys
  | [], l, ys, h => Or.inr ⟨l, by simpa using h⟩
  | x :: xs, [], ys, _ => Or.inl List.nil_prefix
  | x :: xs, y :: l, ys, h => by
    rw [List.cons_append, List.cons_prefix_cons] at h
    obtain ⟨rfl, h2⟩ := h
    rcases prefix_append_cases xs l ys h2 with h3 | ⟨l₂, rfl, h4⟩
    · exact Or.inl (List.cons_prefix_cons.mpr ⟨rfl, h3⟩)
    · exact Or.inr ⟨l₂, by simp, h4⟩

/-- An occurrence of `l` inside `xs ++ ys` lies in `xs`, lies in `ys`,
or straddles the boundary. -/
theorem infix_append_cases {α : Type} :
    ∀ (xs : List α) (l ys : List α), l <:+: xs ++ ys →
      l <:+: xs ∨ l <:+: ys ∨
        ∃ l₁ l₂, l = l₁ ++ l₂ ∧ l₁ ≠ [] ∧ l₂ ≠ [] ∧ l₁ <:+ xs ∧ l₂ <+: ys
  | [], l, ys, h => Or.inr (Or.inl (by simpa using h))
  | x :: xs, l, ys, h => by
    rw [List.cons_append, List.infix_cons_iff] at h
    rcases h with h | h
    · rw [← List.cons_append] at h
      rcases prefix_append_cases (x :: xs) l ys h with h3 | ⟨l₂, rfl, h4⟩
      · exact Or.inl h3.isInfix
      · rcases eq_or_ne l₂ [] with rfl | hne
        · exact Or.inl (by simp)
        · exact Or.inr (Or.inr ⟨x :: xs, l₂, rfl, by simp, hne,
            List.suffix_refl _, h4⟩)
    · rcases infix_append_cases xs l ys h with h3 | h3 | ⟨l₁, l₂, rfl, hn1, hn2, hs, hp⟩
      · exact Or.inl (List.infix_cons h3)
      · exact Or.inr (Or.inl h3)
      · exact Or.inr (Or.inr ⟨l₁, l₂, rfl, hn1, hn2, hs.trans (List.suffix_cons x xs),
          hp⟩)

/-- No URL built by appending `"/api/route"` to a base contains
`"/api/api/"` unless the base already contains it or ends in `"/api"`. -/
theorem no_api_api (b : List Char)
    (h1 : ¬ "/api/api/".toList <:+: b)
    (h2 : ¬ "/api".toList <:+ b) :
    ¬ "/api/api/".toList <:+: (b ++ "/api/route".toList) := by
  intro h
  rcases infix_append_cases b _ _ h with h3 | h3 | ⟨l₁, l₂, hsplit, hn1, hn2, hs, hp⟩
  · exact h1 h3
  · exact absurd h3 (by decide)
  · obtain ⟨n, hn⟩ : ∃ n, l₁.length = n := ⟨_, rfl⟩
    have hlen : l₁.length + l₂.length = 9 := by
      have := congrArg List.length hsplit
      simpa using this.symm
    have hl1 : l₁ = ("/api/api/".toList).take n := by
      rw [hsplit, ← hn]
      simp [List.take_left]
    have hl2 : l₂ = ("/api/api/".toList).drop n := by
      rw [hsplit, ← hn]
      simp [List.drop_left]
    have hb1 : 1 ≤ n := by
      rcases l₁ with _ | _
      · exact absurd rfl hn1
      · simp at hn
        omega
    have hb8 : n ≤ 8 := by
      rcases l₂ with _ | _
      · exact absurd rfl hn2
      · simp at hlen
        rw [hn] at hlen
        omega
    rw [hl2] at hp
    rw [hl1] at hs
    interval_cases n
    · exact absurd hp (by decide)
    · exact absurd hp (by decide)
    · exact absurd hp (by decide)
    · exact h2 (by simpa using hs)
    · exact absurd hp (by decide)
    · exact absurd hp (by decide)
    · exact absurd hp (by decide)
    · exact h2 ((by decide : "/api".toList <:+ ("/api/api/".toList).take 8).trans hs)

/-- Dropping a maximal run and then taking from the same predicate
yields nothing. -/
theorem takeWhile_after_dropWhile {α : Type} (p : α → Bool) :
    ∀ l : List α, ((l.dropWhile p).takeWhile p) = []
  | [] => rfl
  | a :: l => by
    rcases h : p a with _ | _
    · rw [List.dropWhile_cons_of_neg (by simp [h]),
        List.takeWhile_cons_of_neg (by simp [h])]
    · rw [List.dropWhile_cons_of_pos h]
      exact takeWhile_after_dropWhile p l

/-- A cleaned path never starts with a slash. -/
theorem head?_cleanedPath (p : List Char) : (cleanedPath p).head? ≠ some '/' := by
  intro h
  have h2 := takeWhile_after_dropWhile (fun c => c == '/') p
  rcases hc : cleanedPath p with _ | ⟨a, t⟩
  · rw [hc] at h
    cases h
  · rw [hc] at h
    injection h with h3
    subst h3
    rw [cleanedPath] at hc
    rw [hc, List.takeWhile_cons_of_pos (by simp)] at h2
    cases h2

/-- When the base does not end in a slash, the join point of the built
URL carries exactly one slash. -/
theorem joinSlashRun_eq_one (base p : List Char)
    (hb : base.getLast? ≠ some '/') :
    joinSlashRun base ('/' :: cleanedPath p) = 1 := by
  have h1 : base.reverse.takeWhile (fun c => c == '/') = [] := by
    rcases hr : base.reverse with _ | ⟨a, t⟩
    · rfl
    · have ha : base.getLast? = some a := by
        rw [← List.head?_reverse, hr]
        rfl
      have ha' : (a == '/') = false := by
        rcases hc : (a == '/') with _ | _
        · rfl
        · exact absurd (by rw [ha, (beq_iff_eq.mp hc)]) hb
      rw [List.takeWhile_cons_of_neg (by simp [ha'])]
  have h2 : (cleanedPath p).takeWhile (fun c => c == '/') = [] :=
    takeWhile_after_dropWhile (fun c => c == '/') p
  rw [joinSlashRun, h1, List.takeWhile_cons_of_pos (by simp), h2]
  rfl

/-- C9, counterexample: with the configured base `"https://x/api/api"`
(only one trailing `"/api"` is stripped) the call
`apiFetch("/api/route")` produces a URL that does contain `"/api/api/"`,
and with the configured base `"http://x//api"` the normalized base ends
in a slash, so the joined URL carries two consecutive slashes at the
join point. -/
theorem apiFetch_api_api_counterexample :
    ("/api/api/".toList <:+:
      apiFetchUrl "https://x/api/api".toList "/api/route".toList) ∧
    apiFetchUrl "http://x//api".toList "/route".toList = "http://x//route".toList ∧
    (apiBase "http://x//api".toList).getLast? = some '/' ∧
    joinSlashRun (apiBase "http://x//api".toList)
      ('/' :: cleanedPath "/route".toList) = 2 := by
  decide

/-- C9, amended: paths starting with "http" pass through unchanged; any
other path is requested at `apiBase ++ "/" ++ path` with the path's
leading slashes removed; the join point carries exactly one slash
provided the normalized base does not itself end in a slash; and
`apiFetch("/api/route")` yields no `"/api/api/"` provided the normalized
base neither contains `"/api/api/"` nor still ends in `"/api"`. -/
theorem apiFetch_url_normalization :
    (∀ raw p : List Char, startsWithHttp p = true → apiFetchUrl raw p = p) ∧
    (∀ raw p : List Char, startsWithHttp p = false →
      apiFetchUrl raw p = apiBase raw ++ '/' :: cleanedPath p ∧
      (cleanedPath p).head? ≠ some '/') ∧
    (∀ raw p : List Char, startsWithHttp p = false →
      (apiBase raw).getLast? ≠ some '/' →
      joinSlashRun (apiBase raw) ('/' :: cleanedPath p) = 1) ∧
    (∀ raw : List Char,
      ¬ "/api/api/".toList <:+: apiBase raw →
      ¬ "/api".toList <:+ apiBase raw →
      ¬ "/api/api/".toList <:+: apiFetchUrl raw "/api/route".toList) := by
  refine ⟨?_, ?_, ?_, ?_⟩
  · intro raw p h
    simp [apiFetchUrl, h]
  · intro raw p h
    exact ⟨by simp [apiFetchUrl, h], head?_cleanedPath p⟩
  · intro raw p h hb
    exact joinSlashRun_eq_one (apiBase raw) p hb
  · intro raw h1 h2
    have hs : startsWithHttp "/api/route".toList = false := by decide
    have he : apiFetchUrl raw "/api/route".toList =
        apiBase raw ++ "/api/route".toList := by
      rw [apiFetchUrl, hs]
      simp
      decide
    rw [he]
    exact no_api_api (apiBase raw) h1 h2

/-- Closed instance of `apiFetch_url_normalization` at the hard-coded
default base. -/
theorem apiFetch_url_normalization_witness :
    startsWithHttp "/foo".toList = false ∧
    apiFetchUrl defaultRawBase "/foo".toList =
      apiBase defaultRawBase ++ '/' :: cleanedPath "/foo".toList ∧
    ¬ "/api/api/".toList <:+: apiFetchUrl defaultRawBase "/api/route".toList := by
  refine ⟨by decide, ?_, ?_⟩
  · exact (apiFetch_url_normalization.2.1 defaultRawBase "/foo".toList (by decide)).1
  · exact apiFetch_url_normalization.2.2.2 defaultRawBase (by decide) (by decide)

/-- C10: `isOlderThan30Days` is total over arbitrary date strings: when
parsing (or the day-difference computation) fails, it returns `false`
instead of propagating the exception, so an unparsable `dateReported`
never, by itself, makes the archive affordance appear — for any status
other than Matched the Archive button stays hidden. -/
theorem isOlderThan30Days_total
    (parse : String → Option Int) (now : Int) (ds : String)
    (hfail : parse ds = none) :
    isOlderThan30Days parse now ds = false ∧
    (∀ status : String, status ≠ "Matched" →
      archiveLostButtonVisible parse now status ds = false) := by
  refine ⟨by simp [isOlderThan30Days, hfail], ?_⟩
  intro status hst
  have h1 : (status == "Matched") = false := by simp [hst]
  simp [archiveLostButtonVisible, isOlderThan30Days, hfail, h1]

/-- Closed instance of `isOlderThan30Days_total` at an unparsable date
string. -/
theorem isOlderThan30Days_total_witness :
    sampleParse "not-a-date" = none ∧
    isOlderThan30Days sampleParse 45 "not-a-date" = false ∧
    archiveLostButtonVisible sampleParse 45 "Reported" "not-a-date" = false := by
  refine ⟨by decide, ?_, ?_⟩
  · exact (isOlderThan30Days_total sampleParse 45 "not-a-date" (by decide)).1
  · exact (isOlderThan30Days_total sampleParse 45 "not-a-date" (by decide)).2
      "Reported" (by decide)
